import Mathlib

/-!
# abhink/intercom: the distance filter of `main.go`

A shallow embedding of `main.go` (package `main`): `User`, `User.UnmarshalJSON`,
`distances`, `distance`, `getLatLongRadian`, `parseRadianFromDegree`, `radian`.

* Go's `float64` and the functions of `math` and `strconv` that the program calls are
  an interface, `Float64 F`; every definition of the program is written once, over any `F`
  that provides it.  What is proved for every `F` does not depend on how `float64` rounds.
* `exactReal : Float64 ℝ` reads `float64` as the real numbers (no rounding, no NaN, no
  infinities).  The bounds on the value of `distance` are proved for it.  It does not show
  what rounding does: where the exact argument of `math.Acos` is 1 or -1 (coincident and
  antipodal points) the rounded one can leave `[-1, 1]`, and `distance` is then NaN.
* Go functions return `(value, error)`; so do the definitions here, with `Option GoError`
  for `error` (`none` is `nil`).
-/

namespace Intercom

/-! ## Go values -/

/-- The `error` values that reach the program. -/
inductive GoError
  /-- `*json.SyntaxError`: the bytes are not a JSON text. -/
  | jsonInvalid
  /-- `*json.UnmarshalTypeError`: a JSON value does not fit the Go field or struct. -/
  | jsonType (field : String)
  /-- `*strconv.NumError` of `strconv.ParseFloat`. -/
  | numError (input : String)
  /-- What `bufio.Scanner.Err` reports: a line too long, or the reader's own error. -/
  | scan (msg : String)
deriving DecidableEq, Repr

/-- The part of `float64`, `math` and `strconv` that `main.go` uses.  The five laws are
facts of IEEE-754 arithmetic and of `strconv.ParseFloat`. -/
class Float64 (F : Type) where
  /-- `x + y` -/
  add : F → F → F
  /-- `x - y` -/
  sub : F → F → F
  /-- `x * y` -/
  mul : F → F → F
  /-- `x / y` -/
  div : F → F → F
  /-- `x < y` -/
  less : F → F → Bool
  /-- An untyped numeric constant, converted to `float64`. -/
  const : ℚ → F
  /-- `math.Pi`, converted to `float64`. -/
  Pi : F
  /-- `math.Abs` -/
  Abs : F → F
  /-- `math.Sin` -/
  Sin : F → F
  /-- `math.Cos` -/
  Cos : F → F
  /-- `math.Acos` -/
  Acos : F → F
  /-- `strconv.ParseFloat(s, 64)` -/
  ParseFloat : String → F × Option GoError
  /-- IEEE-754 addition is commutative. -/
  add_commutes : ∀ x y, add x y = add y x
  /-- IEEE-754 multiplication is commutative. -/
  mul_commutes : ∀ x y, mul x y = mul y x
  /-- `x - y` and `y - x` differ in sign only. -/
  abs_sub_swap : ∀ x y, Abs (sub x y) = Abs (sub y x)
  /-- No value is less than itself. -/
  less_self : ∀ x, less x x = false
  /-- The empty string is not a number. -/
  parseFloat_empty : (ParseFloat "").2 ≠ none

/-! ## Reading digits (shared by the models of `strconv.ParseInt` and `strconv.ParseFloat`) -/

/-- A decimal digit's value. -/
def digit? (c : Char) : Option ℕ :=
  if '0' ≤ c ∧ c ≤ '9' then some (c.toNat - '0'.toNat) else none

/-- The longest run of decimal digits at the front of the input: `acc` extended by the
digits, `n` plus their number, and the input that is left. -/
def readDigits : List Char → ℕ → ℕ → ℕ × ℕ × List Char
  | [], acc, n => (acc, n, [])
  | c :: cs, acc, n =>
    match digit? c with
    | some d => readDigits cs (10 * acc + d) (n + 1)
    | none => (acc, n, c :: cs)

/-- An optional sign: whether it is `-`, and the input that is left. -/
def readSign : List Char → Bool × List Char
  | '+' :: cs => (false, cs)
  | '-' :: cs => (true, cs)
  | cs => (false, cs)

/-! ## `encoding/json`, for the struct that `User.UnmarshalJSON` decodes into -/

/-- A JSON value.  A number keeps its literal; an object keeps its members in the order
of the text, repeated keys included. -/
inductive JSON
  | null
  | bool (b : Bool)
  | number (literal : String)
  | string (s : String)
  | array (elems : List JSON)
  | object (members : List (String × JSON))

/-- The bytes of one line as `encoding/json` sees them: not a JSON text, or the JSON
value they spell. -/
inductive Line
  | invalid
  | json (v : JSON)

/-- The anonymous struct `tu` of `User.UnmarshalJSON`. -/
structure RawUser where
  UserId : Int
  Name : String
  Lat : String
  Long : String
deriving DecidableEq, Repr

/-- `tu := struct{...}{}`: every field at its zero value. -/
def RawUser.zero : RawUser := ⟨0, "", "", ""⟩

/-- The fields of `tu`. -/
inductive Field
  | UserId
  | Name
  | Lat
  | Long
deriving DecidableEq, Repr

/-- The `json:"..."` tag of a field. -/
def Field.tag : Field → String
  | .UserId => "user_id"
  | .Name => "name"
  | .Lat => "latitude"
  | .Long => "longitude"

/-- The fields in the order of the struct. -/
def Field.all : List Field := [.UserId, .Name, .Lat, .Long]

/-- Case folding of one character of a key, as far as it can reach an ASCII tag: ASCII
letters to lower case, `ſ` (U+017F) to `s`, the Kelvin sign (U+212A) to `k`. -/
def foldRune (c : Char) : Char :=
  if c = Char.ofNat 0x17F then 's'
  else if c = Char.ofNat 0x212A then 'k'
  else c.toLower

/-- A key with every character folded. -/
def foldName (key : String) : List Char := key.toList.map foldRune

/-- The field an object key is decoded into: the field whose tag is the key, else the
first field whose tag equals the key up to case; `none` when the key is ignored. -/
def fieldOf (key : String) : Option Field :=
  match Field.all.find? (fun f => f.tag = key) with
  | some f => some f
  | none => Field.all.find? (fun f => foldName f.tag = foldName key)

/-- `strconv.ParseInt(s, 10, 64)`: an optional sign and at least one decimal digit,
nothing else, with a value that fits 64 bits. -/
def parseInt (s : String) : Option Int :=
  let (neg, cs) := readSign s.toList
  let (m, n, cs) := readDigits cs 0 0
  if n = 0 ∨ cs ≠ [] then none
  else
    let v : Int := if neg then -(m : Int) else m
    if -2 ^ 63 ≤ v ∧ v < 2 ^ 63 then some v else none

/-- Decoding one JSON value into one field of `tu`.  `null` leaves the field as it is;
`user_id` takes a number whose literal is an integer that fits `int`; the other three
take a string; any other value is an `UnmarshalTypeError`. -/
def setField (tu : RawUser) : Field → JSON → Except GoError RawUser
  | _, .null => .ok tu
  | .UserId, .number lit =>
    match parseInt lit with
    | some n => .ok { tu with UserId := n }
    | none => .error (.jsonType Field.UserId.tag)
  | .Name, .string s => .ok { tu with Name := s }
  | .Lat, .string s => .ok { tu with Lat := s }
  | .Long, .string s => .ok { tu with Long := s }
  | f, _ => .error (.jsonType f.tag)

/-- Decoding the members of an object into `tu`, in order: a key of no field is skipped,
a later member overwrites an earlier one. -/
def decodeMembers (tu : RawUser) : List (String × JSON) → Except GoError RawUser
  | [] => .ok tu
  | (key, v) :: rest =>
    match fieldOf key with
    | none => decodeMembers tu rest
    | some f =>
      match setField tu f v with
      | .error err => .error err
      | .ok tu' => decodeMembers tu' rest

/-- `json.Unmarshal(b, &tu)` for a zero `tu`: the struct as decoded, or the error.  A
text that is not JSON is a syntax error; `null` leaves `tu` as it is; an object is
decoded member by member; any other value is an `UnmarshalTypeError`. -/
def unmarshalRawUser : Line → Except GoError RawUser
  | .invalid => .error .jsonInvalid
  | .json .null => .ok RawUser.zero
  | .json (.object members) => decodeMembers RawUser.zero members
  | .json _ => .error (.jsonType "")

/-- Whether a line carries a field: it is an object with a member that is decoded into
the field and is not `null`. -/
def carries (f : Field) : Line → Bool
  | .json (.object members) =>
    members.any fun kv => fieldOf kv.1 = some f && !(kv.2 matches .null)
  | _ => false

/-- The members of an object that are decoded into neither `UserId` nor `Name`. -/
def withoutIdAndName (members : List (String × JSON)) : List (String × JSON) :=
  members.filter fun kv => fieldOf kv.1 ≠ some .UserId ∧ fieldOf kv.1 ≠ some .Name

/-- What `bufio.Scanner` makes of an `io.Reader`: the lines `Scan` yields, then `Err()`. -/
structure Reader where
  lines : List Line
  err : Option GoError

section Program

variable {F : Type} [Float64 F]

instance (priority := 10) instAddFloat64 : Add F := ⟨Float64.add⟩
instance (priority := 10) instSubFloat64 : Sub F := ⟨Float64.sub⟩
instance (priority := 10) instMulFloat64 : Mul F := ⟨Float64.mul⟩
instance (priority := 10) instDivFloat64 : Div F := ⟨Float64.div⟩

open Float64

/-! ## `main.go` -/

/-- Line 16. -/
def intercomLat : F := const 0.930948639728

/-- Line 17. -/
def intercomLong : F := const (-0.10921684028)

/-- Line 18. -/
def eathRadiusKM : F := const 6371

/-- The interface `Location`: the coordinates of a value, in radians. -/
class Location (α : Type) (F : outParam Type) where
  GetLatitude : α → F
  GetLongitude : α → F

/-- The struct `User`.  `UserId` is a Go `int` (64 bits). -/
structure User (F : Type) where
  UserId : Int
  Name : String
  Lat : F
  Long : F

/-- `(u *User) GetLatitude()` -/
def User.GetLatitude (u : User F) : F := u.Lat

/-- `(u *User) GetLongitude()` -/
def User.GetLongitude (u : User F) : F := u.Long

instance : Location (User F) F := ⟨User.GetLatitude, User.GetLongitude⟩

/-- `&User{}`: every field at its zero value. -/
def User.zero : User F := ⟨0, "", const 0, const 0⟩

/-- `radian(deg)`: `deg * math.Pi / 180`. -/
def radian (deg : F) : F := deg * Pi / const 180

/-- `parseRadianFromDegree(deg)`. -/
def parseRadianFromDegree (deg : String) : F × Option GoError :=
  match (ParseFloat deg : F × Option GoError) with
  | (_, some err) => (const 0, some err)
  | (degf, none) => (radian degf, none)

/-- `getLatLongRadian(lat, long)`. -/
def getLatLongRadian (lat long : String) : F × F × Option GoError :=
  match (parseRadianFromDegree lat : F × Option GoError) with
  | (_, some err) => (const 0, const 0, some err)
  | (latr, none) =>
    match (parseRadianFromDegree long : F × Option GoError) with
    | (_, some err) => (const 0, const 0, some err)
    | (longr, none) => (latr, longr, none)

/-- `distance(from, to)`: the spherical law of cosines on a sphere of radius
`eathRadiusKM`. -/
def distance {α β : Type} [Location α F] [Location β F] (from' : α) (to' : β) : F :=
  let dlong := Abs (Location.GetLongitude from' - Location.GetLongitude to')
  let centralAngle := Acos (Sin (Location.GetLatitude from') * Sin (Location.GetLatitude to') +
    Cos (Location.GetLatitude from') * Cos (Location.GetLatitude to') * Cos dlong)
  eathRadiusKM * centralAngle

/-- `(u *User) UnmarshalJSON(b)`: `u` after the call, and the error. -/
def User.UnmarshalJSON (u : User F) (b : Line) : User F × Option GoError :=
  match unmarshalRawUser b with
  | .error err => (u, some err)
  | .ok tu =>
    let u := { u with UserId := tu.UserId, Name := tu.Name }
    match (getLatLongRadian tu.Lat tu.Long : F × F × Option GoError) with
    | (lat, long, some err) => ({ u with Lat := lat, Long := long }, some err)
    | (lat, long, none) => ({ u with Lat := lat, Long := long }, none)

/-- `json.Unmarshal(b, u)` for `u *User`: the syntax check of the whole text, then
`u.UnmarshalJSON(b)`. -/
def unmarshalUser (b : Line) (u : User F) : User F × Option GoError :=
  match b with
  | .invalid => (u, some .jsonInvalid)
  | b => u.UnmarshalJSON b

/-- The loop of `distances`, from the lines not yet scanned and `uds` so far; `err` is
`scanner.Err()`.  The result slice is `none` for Go's `nil`. -/
def distancesLoop (err : Option GoError) (from' : User F) (limit : F) :
    List Line → List (User F) → Option (List (User F)) × Option GoError
  | [], uds =>
    match err with
    | some e => (none, some e)
    | none => (some uds, none)
  | b :: rest, uds =>
    match unmarshalUser b (User.zero : User F) with
    | (_, some e) => (none, some e)
    | (u, none) =>
      if less (distance from' u) limit then distancesLoop err from' limit rest (uds ++ [u])
      else distancesLoop err from' limit rest uds

/-- `distances(r, from, limit)`. -/
def distances (r : Reader) (from' : User F) (limit : F) :
    Option (List (User F)) × Option GoError :=
  distancesLoop r.err from' limit r.lines []

end Program

/-! ## `float64` read as the real numbers -/

/-- A decimal number `mantissa * 10 ^ exp`. -/
structure Decimal where
  mantissa : ℤ
  exp : ℤ
deriving DecidableEq, Repr

/-- The decimal literals `strconv.ParseFloat` accepts: an optional sign, digits with at
most one point and at least one digit, and an optional exponent (`e` or `E`, an optional
sign, at least one digit); nothing may follow. -/
def readFloat (s : String) : Option Decimal :=
  let (neg, cs) := readSign s.toList
  let (m, n, cs) := readDigits cs 0 0
  let (m, nfrac, n, cs) :=
    match cs with
    | '.' :: cs => let (m', k, cs') := readDigits cs m 0; (m', k, n + k, cs')
    | _ => (m, 0, n, cs)
  if n = 0 then none else
  let mant : ℤ := if neg then -m else m
  match cs with
  | [] => some ⟨mant, -(nfrac : ℤ)⟩
  | c :: cs =>
    if c = 'e' ∨ c = 'E' then
      let (eneg, cs) := readSign cs
      let (e, k, cs) := readDigits cs 0 0
      if k = 0 ∨ cs ≠ [] then none
      else some ⟨mant, (if eneg then -(e : ℤ) else e) - nfrac⟩
    else none

/-- The value of a decimal, as a real number. -/
noncomputable def Decimal.toReal (d : Decimal) : ℝ := d.mantissa * (10 : ℝ) ^ d.exp

/-- `float64` as the real numbers: arithmetic is exact, `math.Pi` is `π`, and
`strconv.ParseFloat` accepts the decimal literals of `readFloat` and returns their value.
There is no NaN and no infinity, so the literals that denote them are not numbers here. -/
noncomputable instance exactReal : Float64 ℝ where
  add x y := x + y
  sub x y := x - y
  mul x y := x * y
  div x y := x / y
  less x y := decide (x < y)
  const q := q
  Pi := Real.pi
  Abs x := |x|
  Sin := Real.sin
  Cos := Real.cos
  Acos := Real.arccos
  ParseFloat s :=
    match readFloat s with
    | some d => (d.toReal, none)
    | none => (0, some (.numError s))
  add_commutes := add_comm
  mul_commutes := mul_comm
  abs_sub_swap := abs_sub_comm
  less_self := by simp
  parseFloat_empty := by decide

/-! ## The data of `main_test.go` -/

/-- `&User{Lat: intercomLat, Long: intercomLong}`, the reference point of `main` and of the
tests. -/
def intercom {F : Type} [Float64 F] : User F := ⟨0, "", intercomLat, intercomLong⟩

/-- `TestDistances`, first line of `data`. -/
def aliceLine : Line :=
  .json (.object [("latitude", .string "51.92893"), ("user_id", .number "1"),
    ("name", .string "Alice Cahill"), ("longitude", .string "-10.27699")])

/-- `TestDistances`, second line of `data`. -/
def ianLine : Line :=
  .json (.object [("latitude", .string "53.2451022"), ("user_id", .number "2"),
    ("name", .string "Ian Kehoe"), ("longitude", .string "-6.238335")])

/-- `TestDistancesError`, second line of `data`. -/
def badLine : Line :=
  .json (.object [("latitude", .string "FFFFFFFF"), ("user_id", .number "2"),
    ("name", .string "Case Should Fail"), ("longitude", .string "-6.238335")])

/-- The user `aliceLine` decodes to. -/
noncomputable def alice : User ℝ := ⟨1, "Alice Cahill", radian 51.92893, radian (-10.27699)⟩

/-- The user `ianLine` decodes to. -/
noncomputable def ian : User ℝ := ⟨2, "Ian Kehoe", radian 53.2451022, radian (-6.238335)⟩

/-- `TestDistance`, second case: Varanasi. -/
noncomputable def varanasi : User ℝ := ⟨0, "", radian 25.3209013, radian 82.921069⟩

/-- `TestDistance`, second case: New Delhi. -/
noncomputable def newDelhi : User ℝ := ⟨0, "", radian 28.5274229, radian 77.1389452⟩

/-- `TestDistance`, third case: the point in Brasil. -/
noncomputable def brasil : User ℝ := ⟨0, "", radian 0.175781, radian (-63.281250)⟩

/-- `TestDistance`, third case: the point in Indonesia. -/
noncomputable def indonesia : User ℝ := ⟨0, "", radian (-0.175781), radian 116.718750⟩

/-- A line with coordinates only: no `user_id`, no `name`. -/
def coordinatesOnlyLine : Line :=
  .json (.object [("latitude", .string "53.2451022"), ("longitude", .string "-6.238335")])

/-- A line with every field but `longitude`. -/
def noLongitudeLine : Line :=
  .json (.object [("latitude", .string "53.2451022"), ("user_id", .number "2"),
    ("name", .string "Ian Kehoe")])

/-- A line whose `user_id` is a string, not a number. -/
def stringIdLine : Line :=
  .json (.object [("latitude", .string "53.2451022"), ("user_id", .string "2"),
    ("name", .string "Ian Kehoe"), ("longitude", .string "-6.238335")])

/-! ## `float64` as the real numbers: the operations -/

theorem real_add (x y : ℝ) : @HAdd.hAdd ℝ ℝ ℝ (@instHAdd ℝ instAddFloat64) x y = x + y := rfl
theorem real_sub (x y : ℝ) : @HSub.hSub ℝ ℝ ℝ (@instHSub ℝ instSubFloat64) x y = x - y := rfl
theorem real_mul (x y : ℝ) : @HMul.hMul ℝ ℝ ℝ (@instHMul ℝ instMulFloat64) x y = x * y := rfl
theorem real_div (x y : ℝ) : @HDiv.hDiv ℝ ℝ ℝ (@instHDiv ℝ instDivFloat64) x y = x / y := rfl
theorem real_const (q : ℚ) : (Float64.const q : ℝ) = q := rfl
theorem real_less (x y : ℝ) : Float64.less x y = decide (x < y) := rfl
theorem real_Pi : (Float64.Pi : ℝ) = Real.pi := rfl
theorem real_Abs (x : ℝ) : Float64.Abs x = |x| := rfl
theorem real_Sin (x : ℝ) : Float64.Sin x = Real.sin x := rfl
theorem real_Cos (x : ℝ) : Float64.Cos x = Real.cos x := rfl
theorem real_Acos (x : ℝ) : Float64.Acos x = Real.arccos x := rfl

/-- For `float64` read as the real numbers, `distance` is the spherical law of cosines. -/
theorem distance_real (a b : User ℝ) :
    distance a b = 6371 * Real.arccos (Real.sin a.Lat * Real.sin b.Lat +
      Real.cos a.Lat * Real.cos b.Lat * Real.cos |a.Long - b.Long|) := by
  simp only [distance, eathRadiusKM, Location.GetLatitude, Location.GetLongitude,
    User.GetLatitude, User.GetLongitude, real_add, real_sub, real_mul, real_Abs, real_Sin,
    real_Cos, real_Acos, real_const]
  norm_num

theorem radian_real (deg : ℝ) : radian deg = deg * Real.pi / 180 := by
  simp only [radian, real_mul, real_div, real_Pi, real_const]
  norm_num

/-- The argument of the inverse cosine is a cosine: it lies in `[-1, 1]`. -/
theorem law_of_cosines_mem_Icc (s₁ c₁ s₂ c₂ k : ℝ) (h₁ : s₁ ^ 2 + c₁ ^ 2 = 1)
    (h₂ : s₂ ^ 2 + c₂ ^ 2 = 1) (hk : -1 ≤ k) (hk' : k ≤ 1) :
    -1 ≤ s₁ * s₂ + c₁ * c₂ * k ∧ s₁ * s₂ + c₁ * c₂ * k ≤ 1 := by
  have hk2 : 0 ≤ (1 - k ^ 2) * c₂ ^ 2 := mul_nonneg (by nlinarith) (sq_nonneg _)
  constructor
  · nlinarith [sq_nonneg (s₁ + s₂), sq_nonneg (c₁ + k * c₂)]
  · nlinarith [sq_nonneg (s₁ - s₂), sq_nonneg (c₁ - k * c₂)]

/-! ## Bounds on the cosine and on the law of cosines -/

open Complex in
/-- The Taylor polynomial of degree 4 of the cosine, with its remainder. -/
theorem cos_taylor6 {x : ℝ} (hx : |x| ≤ 1) :
    |Real.cos x - (1 - x ^ 2 / 2 + x ^ 4 / 24)| ≤ |x| ^ 6 * (7 / 4320) := by
  have habs : Complex.abs (x * I) = |x| := by simp
  have habs' : Complex.abs (-x * I) = |x| := by simp
  have b₁ : Complex.abs (Complex.exp (x * I) -
      ∑ m ∈ Finset.range 6, (x * I) ^ m / (m.factorial : ℂ)) ≤ |x| ^ 6 * (7 / 4320) := by
    refine (Complex.exp_bound (habs ▸ hx) (n := 6) (by norm_num)).trans (le_of_eq ?_)
    rw [habs]
    norm_num [Nat.factorial]
  have b₂ : Complex.abs (Complex.exp (-x * I) -
      ∑ m ∈ Finset.range 6, (-x * I) ^ m / (m.factorial : ℂ)) ≤ |x| ^ 6 * (7 / 4320) := by
    refine (Complex.exp_bound (habs' ▸ hx) (n := 6) (by norm_num)).trans (le_of_eq ?_)
    rw [habs']
    norm_num [Nat.factorial]
  have key : ((Real.cos x - (1 - x ^ 2 / 2 + x ^ 4 / 24) : ℝ) : ℂ) =
      ((Complex.exp (x * I) - ∑ m ∈ Finset.range 6, (x * I) ^ m / (m.factorial : ℂ)) +
        (Complex.exp (-x * I) - ∑ m ∈ Finset.range 6, (-x * I) ^ m / (m.factorial : ℂ))) / 2 := by
    have hI2 : I ^ 2 = -1 := Complex.I_sq
    simp only [Finset.sum_range_succ, Finset.range_zero, Finset.sum_empty, Nat.factorial]
    push_cast
    rw [Complex.cos]
    linear_combination ((x : ℂ) ^ 2 / 2 + (x : ℂ) ^ 4 * (I ^ 2 - 1) / 24) * hI2
  have tri := Complex.abs.add_le
    (Complex.exp (x * I) - ∑ m ∈ Finset.range 6, (x * I) ^ m / (m.factorial : ℂ))
    (Complex.exp (-x * I) - ∑ m ∈ Finset.range 6, (-x * I) ^ m / (m.factorial : ℂ))
  have h2 : Complex.abs (2 : ℂ) = 2 := by simp
  rw [← Complex.abs_ofReal, key, map_div₀, h2, div_le_iff₀ (by norm_num)]
  linarith


theorem cos_ge_of_mem {y lo hi : ℝ} (h0 : 0 ≤ lo) (h1 : lo ≤ y) (h2 : y ≤ hi) (h3 : hi ≤ 1) :
    1 - hi ^ 2 / 2 + lo ^ 4 / 24 - hi ^ 6 * (7 / 4320) ≤ Real.cos y := by
  have hy0 : 0 ≤ y := h0.trans h1
  have hy : |y| = y := abs_of_nonneg hy0
  have t := (abs_le.mp (cos_taylor6 (x := y) (by rw [hy]; linarith))).1
  rw [hy] at t
  have e2 : y ^ 2 ≤ hi ^ 2 := pow_le_pow_left₀ hy0 h2 2
  have e4 : lo ^ 4 ≤ y ^ 4 := pow_le_pow_left₀ h0 h1 4
  have e6 : y ^ 6 ≤ hi ^ 6 := pow_le_pow_left₀ hy0 h2 6
  linarith

theorem cos_le_of_mem {y lo hi : ℝ} (h0 : 0 ≤ lo) (h1 : lo ≤ y) (h2 : y ≤ hi) (h3 : hi ≤ 1) :
    Real.cos y ≤ 1 - lo ^ 2 / 2 + hi ^ 4 / 24 + hi ^ 6 * (7 / 4320) := by
  have hy0 : 0 ≤ y := h0.trans h1
  have hy : |y| = y := abs_of_nonneg hy0
  have t := (abs_le.mp (cos_taylor6 (x := y) (by rw [hy]; linarith))).2
  rw [hy] at t
  have e2 : lo ^ 2 ≤ y ^ 2 := pow_le_pow_left₀ h0 h1 2
  have e4 : y ^ 4 ≤ hi ^ 4 := pow_le_pow_left₀ hy0 h2 4
  have e6 : y ^ 6 ≤ hi ^ 6 := pow_le_pow_left₀ hy0 h2 6
  linarith

theorem law_le {a b e ca cb cd ce : ℝ} (h0a : 0 ≤ ca) (h0b : 0 ≤ cb)
    (hca : ca ≤ Real.cos a) (hcb : cb ≤ Real.cos b) (hcd : Real.cos (a - b) ≤ cd)
    (hce : Real.cos e ≤ ce) (hce1 : ce ≤ 1) :
    Real.sin a * Real.sin b + Real.cos a * Real.cos b * Real.cos e ≤ cd - ca * cb * (1 - ce) := by
  have hsub := Real.cos_sub a b
  have hp : ca * cb ≤ Real.cos a * Real.cos b := mul_le_mul hca hcb h0b (h0a.trans hca)
  have hq : ca * cb * (1 - ce) ≤ Real.cos a * Real.cos b * (1 - Real.cos e) :=
    mul_le_mul hp (by linarith) (by linarith) ((mul_nonneg h0a h0b).trans hp)
  nlinarith

theorem law_ge {a b e ca cb cd ce : ℝ} (h0a : 0 ≤ Real.cos a) (h0b : 0 ≤ Real.cos b)
    (hca : Real.cos a ≤ ca) (hcb : Real.cos b ≤ cb) (hcd : cd ≤ Real.cos (a - b))
    (hce : ce ≤ Real.cos e) :
    cd - ca * cb * (1 - ce) ≤ Real.sin a * Real.sin b + Real.cos a * Real.cos b * Real.cos e := by
  have hsub := Real.cos_sub a b
  have hp : Real.cos a * Real.cos b ≤ ca * cb := mul_le_mul hca hcb h0b (h0a.trans hca)
  have h1 : 0 ≤ 1 - Real.cos e := by linarith [Real.cos_le_one e]
  have hq : Real.cos a * Real.cos b * (1 - Real.cos e) ≤ ca * cb * (1 - ce) :=
    mul_le_mul hp (by linarith) h1 ((mul_nonneg h0a h0b).trans hp)
  nlinarith

theorem le_arccos_of_le_cos {x t : ℝ} (ht0 : 0 ≤ t) (htp : t ≤ Real.pi) (hx : -1 ≤ x)
    (h : x ≤ Real.cos t) : t ≤ Real.arccos x := by
  have h1 : Real.arccos (Real.cos t) ≤ Real.arccos x :=
    Real.strictAntiOn_arccos.antitoneOn ⟨hx, h.trans (Real.cos_le_one t)⟩
      ⟨Real.neg_one_le_cos t, Real.cos_le_one t⟩ h
  rwa [Real.arccos_cos ht0 htp] at h1

theorem arccos_le_of_cos_le {x t : ℝ} (ht0 : 0 ≤ t) (htp : t ≤ Real.pi) (hx : x ≤ 1)
    (h : Real.cos t ≤ x) : Real.arccos x ≤ t := by
  have h1 : Real.arccos x ≤ Real.arccos (Real.cos t) :=
    Real.strictAntiOn_arccos.antitoneOn ⟨Real.neg_one_le_cos t, Real.cos_le_one t⟩
      ⟨(Real.neg_one_le_cos t).trans h, hx⟩ h
  rwa [Real.arccos_cos ht0 htp] at h1

theorem varanasi_newDelhi_cos :
    (0.9943934 : ℝ) ≤ Real.sin (25.3209013 * Real.pi / 180) * Real.sin (28.5274229 * Real.pi / 180) +
      Real.cos (25.3209013 * Real.pi / 180) * Real.cos (28.5274229 * Real.pi / 180) *
        Real.cos (82.921069 * Real.pi / 180 - 77.1389452 * Real.pi / 180) ∧
    Real.sin (25.3209013 * Real.pi / 180) * Real.sin (28.5274229 * Real.pi / 180) +
      Real.cos (25.3209013 * Real.pi / 180) * Real.cos (28.5274229 * Real.pi / 180) *
        Real.cos (82.921069 * Real.pi / 180 - 77.1389452 * Real.pi / 180) ≤ (0.9943938 : ℝ) := by
  have hp1 := Real.pi_gt_d6
  have hp2 := Real.pi_lt_d6
  -- the angles
  have ha1 : (0.441933005315 : ℝ) ≤ 25.3209013 * Real.pi / 180 := by linarith
  have ha2 : 25.3209013 * Real.pi / 180 ≤ (0.441933145988 : ℝ) := by linarith
  have hb1 : (0.497897353129 : ℝ) ≤ 28.5274229 * Real.pi / 180 := by linarith
  have hb2 : 28.5274229 * Real.pi / 180 ≤ (0.497897511615 : ℝ) := by linarith
  have hd1 : (0.055964347813 : ℝ) ≤ 28.5274229 * Real.pi / 180 - 25.3209013 * Real.pi / 180 := by
    linarith
  have hd2 : 28.5274229 * Real.pi / 180 - 25.3209013 * Real.pi / 180 ≤ (0.055964365628 : ℝ) := by
    linarith
  have he1 : (0.100917077072 : ℝ) ≤ 82.921069 * Real.pi / 180 - 77.1389452 * Real.pi / 180 := by
    linarith
  have he2 : 82.921069 * Real.pi / 180 - 77.1389452 * Real.pi / 180 ≤ (0.100917109196 : ℝ) := by
    linarith
  clear hp1 hp2
  -- their cosines
  have ca1 : (0.903924807511 : ℝ) ≤ Real.cos (25.3209013 * Real.pi / 180) :=
    le_trans (by norm_num) (cos_ge_of_mem (by norm_num) ha1 ha2 (by norm_num))
  have ca2 : Real.cos (25.3209013 * Real.pi / 180) ≤ (0.903949014287 : ℝ) :=
    le_trans (cos_le_of_mem (by norm_num) ha1 ha2 (by norm_num)) (by norm_num)
  have cb1 : (0.878584984845 : ℝ) ≤ Real.cos (28.5274229 * Real.pi / 180) :=
    le_trans (by norm_num) (cos_ge_of_mem (by norm_num) hb1 hb2 (by norm_num))
  have cb2 : Real.cos (28.5274229 * Real.pi / 180) ≤ (0.878634439392 : ℝ) :=
    le_trans (cos_le_of_mem (by norm_num) hb1 hb2 (by norm_num)) (by norm_num)
  have cd1 : (0.998434403568 : ℝ) ≤
      Real.cos (25.3209013 * Real.pi / 180 - 28.5274229 * Real.pi / 180) := by
    rw [← Real.cos_neg, neg_sub]
    exact le_trans (by norm_num) (cos_ge_of_mem (by norm_num) hd1 hd2 (by norm_num))
  have cd2 : Real.cos (25.3209013 * Real.pi / 180 - 28.5274229 * Real.pi / 180) ≤
      (0.998434404666 : ℝ) := by
    rw [← Real.cos_neg, neg_sub]
    exact le_trans (cos_le_of_mem (by norm_num) hd1 hd2 (by norm_num)) (by norm_num)
  have ce1 : (0.994912188452 : ℝ) ≤
      Real.cos (82.921069 * Real.pi / 180 - 77.1389452 * Real.pi / 180) :=
    le_trans (by norm_num) (cos_ge_of_mem (by norm_num) he1 he2 (by norm_num))
  have ce2 : Real.cos (82.921069 * Real.pi / 180 - 77.1389452 * Real.pi / 180) ≤
      (0.994912195124 : ℝ) :=
    le_trans (cos_le_of_mem (by norm_num) he1 he2 (by norm_num)) (by norm_num)
  exact ⟨le_trans (by norm_num) (law_ge (le_trans (by norm_num) ca1) (le_trans (by norm_num) cb1)
      ca2 cb2 cd1 ce1),
    le_trans (law_le (by norm_num) (by norm_num) ca1 cb1 cd2 ce2 (by norm_num)) (by norm_num)⟩

theorem cos_674 : (0.9943939 : ℝ) ≤ Real.cos (674 / 6371) :=
  le_trans (by norm_num) (cos_ge_of_mem (by norm_num) le_rfl le_rfl (by norm_num))

theorem cos_676 : Real.cos (676 / 6371) ≤ (0.9943933 : ℝ) :=
  le_trans (cos_le_of_mem (by norm_num) le_rfl le_rfl (by norm_num)) (by norm_num)


theorem intercomLat_real : (intercomLat : ℝ) = 0.930948639728 := by
  show ((0.930948639728 : ℚ) : ℝ) = _
  norm_num

theorem intercomLong_real : (intercomLong : ℝ) = -0.10921684028 := by
  show ((-0.10921684028 : ℚ) : ℝ) = _
  norm_num

theorem cos_intercomLat : (0.59 : ℝ) ≤ Real.cos 0.930948639728 :=
  le_trans (by norm_num) (cos_ge_of_mem (by norm_num) le_rfl le_rfl (by norm_num))

theorem cos_100 : (0.9998 : ℝ) ≤ Real.cos (100 / 6371) :=
  le_trans (by norm_num) (cos_ge_of_mem (by norm_num) le_rfl le_rfl (by norm_num))

theorem cos_99 : Real.cos (99 / 6371) ≤ (0.9999 : ℝ) :=
  le_trans (cos_le_of_mem (by norm_num) le_rfl le_rfl (by norm_num)) (by norm_num)

/-- The cosine of the central angle between the reference point and Alice. -/
theorem intercom_alice_cos :
    Real.sin 0.930948639728 * Real.sin (51.92893 * Real.pi / 180) +
      Real.cos 0.930948639728 * Real.cos (51.92893 * Real.pi / 180) *
        Real.cos (-0.10921684028 - -10.27699 * Real.pi / 180) ≤ (0.9997 : ℝ) := by
  have hp1 := Real.pi_gt_d6
  have hp2 := Real.pi_lt_d6
  have hb1 : (0.9063 : ℝ) ≤ 51.92893 * Real.pi / 180 := by linarith
  have hb2 : 51.92893 * Real.pi / 180 ≤ (0.9064 : ℝ) := by linarith
  have hd1 : (0.0246 : ℝ) ≤ 0.930948639728 - 51.92893 * Real.pi / 180 := by linarith
  have hd2 : 0.930948639728 - 51.92893 * Real.pi / 180 ≤ (0.0247 : ℝ) := by linarith
  clear hp1 hp2
  have cb1 : (0.61 : ℝ) ≤ Real.cos (51.92893 * Real.pi / 180) :=
    le_trans (by norm_num) (cos_ge_of_mem (by norm_num) hb1 hb2 (by norm_num))
  have cd2 : Real.cos (0.930948639728 - 51.92893 * Real.pi / 180) ≤ (0.9997 : ℝ) :=
    le_trans (cos_le_of_mem (by norm_num) hd1 hd2 (by norm_num)) (by norm_num)
  exact le_trans (law_le (by norm_num) (by norm_num) cos_intercomLat cb1 cd2
    (Real.cos_le_one _) le_rfl) (by norm_num)

/-- The cosine of the central angle between the reference point and Ian. -/
theorem intercom_ian_cos :
    (0.99999 : ℝ) ≤ Real.sin 0.930948639728 * Real.sin (53.2451022 * Real.pi / 180) +
      Real.cos 0.930948639728 * Real.cos (53.2451022 * Real.pi / 180) *
        Real.cos (-0.10921684028 - -6.238335 * Real.pi / 180) := by
  have hp1 := Real.pi_gt_d6
  have hp2 := Real.pi_lt_d6
  have hb1 : (0.9293 : ℝ) ≤ 53.2451022 * Real.pi / 180 := by linarith
  have hb2 : 53.2451022 * Real.pi / 180 ≤ (0.9294 : ℝ) := by linarith
  have hd1 : (0.0016 : ℝ) ≤ 0.930948639728 - 53.2451022 * Real.pi / 180 := by linarith
  have hd2 : 0.930948639728 - 53.2451022 * Real.pi / 180 ≤ (0.0017 : ℝ) := by linarith
  have he1 : (0.0003 : ℝ) ≤ -(-0.10921684028 - -6.238335 * Real.pi / 180) := by linarith
  have he2 : -(-0.10921684028 - -6.238335 * Real.pi / 180) ≤ (0.0004 : ℝ) := by linarith
  clear hp1 hp2
  have cb1 : (0.59 : ℝ) ≤ Real.cos (53.2451022 * Real.pi / 180) :=
    le_trans (by norm_num) (cos_ge_of_mem (by norm_num) hb1 hb2 (by norm_num))
  have cd1 : (0.999998 : ℝ) ≤ Real.cos (0.930948639728 - 53.2451022 * Real.pi / 180) :=
    le_trans (by norm_num) (cos_ge_of_mem (by norm_num) hd1 hd2 (by norm_num))
  have ce1 : (0.9999999 : ℝ) ≤ Real.cos (-0.10921684028 - -6.238335 * Real.pi / 180) := by
    rw [← Real.cos_neg]
    exact le_trans (by norm_num) (cos_ge_of_mem (by norm_num) he1 he2 (by norm_num))
  exact le_trans (by norm_num) (law_ge (le_trans (by norm_num) cos_intercomLat)
    (le_trans (by norm_num) cb1) (Real.cos_le_one _) (Real.cos_le_one _) cd1 ce1)

/-- Alice is at least 100 km from the reference point. -/
theorem alice_far : ¬ distance (intercom : User ℝ) alice < 100 := by
  rw [distance_real, not_lt]
  simp only [intercom, alice, intercomLat_real, intercomLong_real, radian_real, Real.cos_abs]
  have hX := intercom_alice_cos
  generalize Real.sin 0.930948639728 * Real.sin (51.92893 * Real.pi / 180) +
    Real.cos 0.930948639728 * Real.cos (51.92893 * Real.pi / 180) *
      Real.cos (-0.10921684028 - -10.27699 * Real.pi / 180) = X at hX ⊢
  by_cases hX' : -1 ≤ X
  · have h : (100 / 6371 : ℝ) ≤ Real.arccos X :=
      le_arccos_of_le_cos (by norm_num) (le_trans (by norm_num) Real.pi_gt_three.le) hX'
        (le_trans hX (le_trans (by norm_num) cos_100))
    rw [div_le_iff₀ (by norm_num)] at h
    linarith
  · rw [Real.arccos_of_le_neg_one (not_le.mp hX').le]
    nlinarith [Real.pi_gt_three]

/-- Ian is less than 100 km from the reference point. -/
theorem ian_near : distance (intercom : User ℝ) ian < 100 := by
  rw [distance_real]
  simp only [intercom, ian, intercomLat_real, intercomLong_real, radian_real, Real.cos_abs]
  have hX := intercom_ian_cos
  have hX1 := (law_of_cosines_mem_Icc _ _ _ _ _ (Real.sin_sq_add_cos_sq 0.930948639728)
    (Real.sin_sq_add_cos_sq (53.2451022 * Real.pi / 180))
    (Real.neg_one_le_cos (-0.10921684028 - -6.238335 * Real.pi / 180))
    (Real.cos_le_one _)).2
  generalize Real.sin 0.930948639728 * Real.sin (53.2451022 * Real.pi / 180) +
    Real.cos 0.930948639728 * Real.cos (53.2451022 * Real.pi / 180) *
      Real.cos (-0.10921684028 - -6.238335 * Real.pi / 180) = X at hX hX1 ⊢
  have h : Real.arccos X ≤ (99 / 6371 : ℝ) :=
    arccos_le_of_cos_le (by norm_num) (le_trans (by norm_num) Real.pi_gt_three.le) hX1
      (le_trans cos_99 (le_trans (by norm_num) hX))
  rw [le_div_iff₀ (by norm_num)] at h
  linarith

/-! ## The loop of `distances` in closed form -/

section Generic

variable {F : Type} [Float64 F]

open Float64

theorem distancesLoop_eq (err : Option GoError) (from' : User F) (limit : F) (ls : List Line)
    (uds : List (User F)) :
    distancesLoop err from' limit ls uds =
      match ls.findSome? (fun b => (unmarshalUser b (User.zero : User F)).2) with
      | some e => (none, some e)
      | none =>
        match err with
        | some e => (none, some e)
        | none => (some (uds ++ (ls.map fun b => (unmarshalUser b (User.zero : User F)).1).filter
            fun u => less (distance from' u) limit), none) := by
  induction ls generalizing uds with
  | nil => cases err <;> simp [distancesLoop]
  | cons b rest ih =>
    rcases hb : unmarshalUser b (User.zero : User F) with ⟨u, _ | e⟩
    · by_cases hk : less (distance from' u) limit = true
      · simp [distancesLoop, hb, hk, ih, List.findSome?_cons]
      · simp [distancesLoop, hb, hk, ih, List.findSome?_cons]
    · simp [distancesLoop, hb, List.findSome?_cons]

theorem distances_eq (r : Reader) (from' : User F) (limit : F) :
    distances r from' limit =
      match r.lines.findSome? (fun b => (unmarshalUser b (User.zero : User F)).2) with
      | some e => (none, some e)
      | none =>
        match r.err with
        | some e => (none, some e)
        | none => (some ((r.lines.map fun b => (unmarshalUser b (User.zero : User F)).1).filter
            fun u => less (distance from' u) limit), none) := by
  simp [distances, distancesLoop_eq]

/-- A line that `unmarshalUser` rejects makes the whole of `distances` fail. -/
theorem distances_error_of_mem (r : Reader) (from' : User F) (limit : F) (b : Line)
    (hb : b ∈ r.lines) (hbad : (unmarshalUser b (User.zero : User F)).2 ≠ none) :
    ∃ e, distances r from' limit = (none, some e) := by
  rw [distances_eq]
  cases hf : r.lines.findSome? (fun b => (unmarshalUser b (User.zero : User F)).2) with
  | some e => exact ⟨e, rfl⟩
  | none => exact absurd (List.findSome?_eq_none_iff.mp hf b hb) hbad

/-- Whether `unmarshalUser` fails on a line is decided by `User.UnmarshalJSON`. -/
theorem unmarshalUser_snd (b : Line) (u : User F) :
    (unmarshalUser b u).2 = (u.UnmarshalJSON b).2 := by
  cases b <;> simp [unmarshalUser, User.UnmarshalJSON, unmarshalRawUser]

theorem getLatLongRadian_error_of_lat (lat long : String)
    (h : (ParseFloat lat : F × Option GoError).2 ≠ none) :
    (getLatLongRadian lat long : F × F × Option GoError).2.2 ≠ none := by
  rcases hp : (ParseFloat lat : F × Option GoError) with ⟨v, _ | e⟩
  · simp [hp] at h
  · simp [getLatLongRadian, parseRadianFromDegree, hp]

theorem getLatLongRadian_error_of_long (lat long : String)
    (h : (ParseFloat long : F × Option GoError).2 ≠ none) :
    (getLatLongRadian lat long : F × F × Option GoError).2.2 ≠ none := by
  rcases hq : (ParseFloat long : F × Option GoError) with ⟨w, _ | e⟩
  · simp [hq] at h
  · rcases hp : (ParseFloat lat : F × Option GoError) with ⟨v, _ | e'⟩ <;>
      simp [getLatLongRadian, parseRadianFromDegree, hp, hq]

/-- `User.UnmarshalJSON` fails as soon as `getLatLongRadian` does. -/
theorem UnmarshalJSON_error_of_coords (u : User F) (b : Line) (tu : RawUser)
    (hb : unmarshalRawUser b = .ok tu)
    (h : (getLatLongRadian tu.Lat tu.Long : F × F × Option GoError).2.2 ≠ none) :
    (u.UnmarshalJSON b).2 ≠ none := by
  rcases hg : (getLatLongRadian tu.Lat tu.Long : F × F × Option GoError) with ⟨lat, long, _ | e⟩
  · simp [hg] at h
  · simp [User.UnmarshalJSON, hb, hg]

/-! ## Which fields decoding needs -/

theorem setField_Lat (tu tu' : RawUser) (f : Field) (v : JSON)
    (h : setField tu f v = .ok tu') (hf : f = .Lat → v = .null) : tu'.Lat = tu.Lat := by
  cases f <;> cases v <;> simp_all [setField] <;> try (subst h; rfl)
  all_goals
    split at h <;> simp_all
    subst h; rfl

theorem setField_Long (tu tu' : RawUser) (f : Field) (v : JSON)
    (h : setField tu f v = .ok tu') (hf : f = .Long → v = .null) : tu'.Long = tu.Long := by
  cases f <;> cases v <;> simp_all [setField] <;> try (subst h; rfl)
  all_goals
    split at h <;> simp_all
    subst h; rfl

theorem decodeMembers_Lat (ms : List (String × JSON)) (tu tu' : RawUser)
    (h : decodeMembers tu ms = .ok tu')
    (hms : ∀ kv ∈ ms, fieldOf kv.1 = some .Lat → kv.2 = .null) : tu'.Lat = tu.Lat := by
  induction ms generalizing tu with
  | nil =>
    simp only [decodeMembers, Except.ok.injEq] at h
    rw [h]
  | cons kv rest ih =>
    obtain ⟨key, v⟩ := kv
    simp only [decodeMembers] at h
    have hrest : ∀ kv ∈ rest, fieldOf kv.1 = some .Lat → kv.2 = .null :=
      fun kv hkv => hms kv (List.mem_cons_of_mem _ hkv)
    cases hf : fieldOf key with
    | none =>
      simp only [hf] at h
      exact ih tu h hrest
    | some f =>
      simp only [hf] at h
      cases hs : setField tu f v with
      | error e => simp [hs] at h
      | ok tu₁ =>
        simp only [hs] at h
        rw [ih tu₁ h hrest]
        exact setField_Lat tu tu₁ f v hs
          (fun hfl => hms (key, v) (List.mem_cons_self _ _) (by rw [hf, hfl]))

theorem decodeMembers_Long (ms : List (String × JSON)) (tu tu' : RawUser)
    (h : decodeMembers tu ms = .ok tu')
    (hms : ∀ kv ∈ ms, fieldOf kv.1 = some .Long → kv.2 = .null) : tu'.Long = tu.Long := by
  induction ms generalizing tu with
  | nil =>
    simp only [decodeMembers, Except.ok.injEq] at h
    rw [h]
  | cons kv rest ih =>
    obtain ⟨key, v⟩ := kv
    simp only [decodeMembers] at h
    have hrest : ∀ kv ∈ rest, fieldOf kv.1 = some .Long → kv.2 = .null :=
      fun kv hkv => hms kv (List.mem_cons_of_mem _ hkv)
    cases hf : fieldOf key with
    | none =>
      simp only [hf] at h
      exact ih tu h hrest
    | some f =>
      simp only [hf] at h
      cases hs : setField tu f v with
      | error e => simp [hs] at h
      | ok tu₁ =>
        simp only [hs] at h
        rw [ih tu₁ h hrest]
        exact setField_Long tu tu₁ f v hs
          (fun hfl => hms (key, v) (List.mem_cons_self _ _) (by rw [hf, hfl]))

/-- A line that does not carry a field has no member that sets it. -/
theorem members_null_of_not_carries (f : Field) (ms : List (String × JSON))
    (h : carries f (.json (.object ms)) = false) :
    ∀ kv ∈ ms, fieldOf kv.1 = some f → kv.2 = .null := by
  intro kv hkv hf
  simp only [carries, List.any_eq_false, Bool.and_eq_true, decide_eq_true_eq, Bool.not_eq_true',
    not_and, Bool.not_eq_false] at h
  have := h kv hkv hf
  cases hv : kv.2 <;> simp_all

/-- A line that does not carry a latitude decodes, if at all, with `Lat` empty; likewise
for the longitude. -/
theorem unmarshalRawUser_of_not_carries (b : Line) (tu : RawUser)
    (hb : unmarshalRawUser b = .ok tu) :
    (carries .Lat b = false → tu.Lat = "") ∧ (carries .Long b = false → tu.Long = "") := by
  cases b with
  | invalid => simp [unmarshalRawUser] at hb
  | json v =>
    cases v with
    | null =>
      simp only [unmarshalRawUser, Except.ok.injEq] at hb
      subst hb
      exact ⟨fun _ => rfl, fun _ => rfl⟩
    | object ms =>
      simp only [unmarshalRawUser] at hb
      exact ⟨fun h => decodeMembers_Lat ms _ tu hb (members_null_of_not_carries _ ms h),
        fun h => decodeMembers_Long ms _ tu hb (members_null_of_not_carries _ ms h)⟩
    | bool _ => simp [unmarshalRawUser] at hb
    | number _ => simp [unmarshalRawUser] at hb
    | string _ => simp [unmarshalRawUser] at hb
    | array _ => simp [unmarshalRawUser] at hb

/-- A line that carries no latitude, or no longitude, is rejected. -/
theorem unmarshalUser_error_of_not_carries (b : Line) (u : User F)
    (h : carries .Lat b = false ∨ carries .Long b = false) : (unmarshalUser b u).2 ≠ none := by
  rw [unmarshalUser_snd]
  cases hb : unmarshalRawUser b with
  | error e => simp [User.UnmarshalJSON, hb]
  | ok tu =>
    refine UnmarshalJSON_error_of_coords u b tu hb ?_
    obtain ⟨h₁, h₂⟩ := unmarshalRawUser_of_not_carries b tu hb
    rcases h with h | h
    · exact getLatLongRadian_error_of_lat _ _ (by rw [h₁ h]; exact parseFloat_empty)
    · exact getLatLongRadian_error_of_long _ _ (by rw [h₂ h]; exact parseFloat_empty)

/-- Setting a coordinate field does not look at the rest of the struct. -/
theorem setField_coord (tu tu₁ tu₀ : RawUser) (f : Field) (v : JSON)
    (h : setField tu f v = .ok tu₁) (hf : f = .Lat ∨ f = .Long)
    (hlat : tu₀.Lat = tu.Lat) (hlong : tu₀.Long = tu.Long) :
    ∃ tu₀', setField tu₀ f v = .ok tu₀' ∧ tu₀'.Lat = tu₁.Lat ∧ tu₀'.Long = tu₁.Long ∧
      tu₀'.UserId = tu₀.UserId ∧ tu₀'.Name = tu₀.Name := by
  rcases hf with rfl | rfl <;> cases v <;> simp_all [setField] <;> subst h <;> simp_all

/-- Without the members of `user_id` and `name`, decoding succeeds as before, with the
same coordinate strings, and leaves `UserId` and `Name` as they were. -/
theorem decodeMembers_withoutIdAndName (ms : List (String × JSON)) (tu tu' tu₀ : RawUser)
    (h : decodeMembers tu ms = .ok tu') (hlat : tu₀.Lat = tu.Lat) (hlong : tu₀.Long = tu.Long) :
    ∃ tu₂, decodeMembers tu₀ (withoutIdAndName ms) = .ok tu₂ ∧ tu₂.Lat = tu'.Lat ∧
      tu₂.Long = tu'.Long ∧ tu₂.UserId = tu₀.UserId ∧ tu₂.Name = tu₀.Name := by
  induction ms generalizing tu tu₀ with
  | nil =>
    simp only [decodeMembers, Except.ok.injEq] at h
    subst h
    exact ⟨tu₀, rfl, hlat, hlong, rfl, rfl⟩
  | cons kv rest ih =>
    obtain ⟨key, v⟩ := kv
    simp only [decodeMembers] at h
    cases hf : fieldOf key with
    | none =>
      simp only [hf] at h
      have hk : withoutIdAndName ((key, v) :: rest) = (key, v) :: withoutIdAndName rest := by
        simp [withoutIdAndName, hf]
      rw [hk]
      simp only [decodeMembers, hf]
      exact ih tu tu₀ h hlat hlong
    | some f =>
      simp only [hf] at h
      cases hs : setField tu f v with
      | error e => simp [hs] at h
      | ok tu₁ =>
        simp only [hs] at h
        by_cases hc : f = .Lat ∨ f = .Long
        · have hk : withoutIdAndName ((key, v) :: rest) = (key, v) :: withoutIdAndName rest := by
            rcases hc with rfl | rfl <;> simp [withoutIdAndName, hf]
          obtain ⟨tu₀', h₀, h₁, h₂, h₃, h₄⟩ := setField_coord tu tu₁ tu₀ f v hs hc hlat hlong
          rw [hk]
          simp only [decodeMembers, hf, h₀]
          obtain ⟨tu₂, e₀, e₁, e₂, e₃, e₄⟩ := ih tu₁ tu₀' h h₁ h₂
          exact ⟨tu₂, e₀, e₁, e₂, e₃.trans h₃, e₄.trans h₄⟩
        · have hk : withoutIdAndName ((key, v) :: rest) = withoutIdAndName rest := by
            cases f <;> simp_all [withoutIdAndName]
          rw [hk]
          refine ih tu₁ tu₀ h ?_ ?_
          · rw [hlat]
            exact (setField_Lat tu tu₁ f v hs (fun hfl => absurd (Or.inl hfl) hc)).symm
          · rw [hlong]
            exact (setField_Long tu tu₁ f v hs (fun hfl => absurd (Or.inr hfl) hc)).symm

/-- An object that decodes still decodes without its `user_id` and `name` members: to
the same coordinates, with `UserId` 0 and `Name` empty. -/
theorem unmarshalUser_withoutIdAndName (ms : List (String × JSON)) (u : User F)
    (h : unmarshalUser (.json (.object ms)) (User.zero : User F) = (u, none)) :
    unmarshalUser (.json (.object (withoutIdAndName ms))) (User.zero : User F) =
      ({ u with UserId := 0, Name := "" }, none) := by
  simp only [unmarshalUser, User.UnmarshalJSON, unmarshalRawUser] at h ⊢
  cases hd : decodeMembers RawUser.zero ms with
  | error e => simp [hd] at h
  | ok tu' =>
    obtain ⟨tu₂, e₀, e₁, e₂, e₃, e₄⟩ :=
      decodeMembers_withoutIdAndName ms RawUser.zero tu' RawUser.zero hd rfl rfl
    simp only [hd] at h
    simp only [e₀, e₁, e₂, e₃, e₄]
    rcases hg : (getLatLongRadian tu'.Lat tu'.Long : F × F × Option GoError) with
      ⟨lat, long, _ | e⟩
    · simp only [hg, Prod.mk.injEq, and_true] at h
      subst h
      simp [RawUser.zero]
    · simp [hg] at h

/-- Whether a value fits a field does not depend on the rest of the struct. -/
theorem setField_error (tu tu₀ : RawUser) (f : Field) (v : JSON) (e : GoError)
    (h : setField tu f v = .error e) : setField tu₀ f v = .error e := by
  cases f <;> cases v <;> simp_all [setField]
  split at h <;> simp_all

/-- A member whose value does not fit its field makes the decoding of the object fail. -/
theorem decodeMembers_error_of_mem (ms : List (String × JSON)) (tu : RawUser) (key : String)
    (v : JSON) (f : Field) (e : GoError) (hmem : (key, v) ∈ ms) (hf : fieldOf key = some f)
    (hv : setField RawUser.zero f v = .error e) : ∃ e', decodeMembers tu ms = .error e' := by
  induction ms generalizing tu with
  | nil => simp at hmem
  | cons kv rest ih =>
    obtain ⟨key', v'⟩ := kv
    simp only [decodeMembers]
    rcases List.mem_cons.mp hmem with heq | hrest
    · obtain ⟨rfl, rfl⟩ := Prod.mk.inj heq
      simp only [hf, setField_error _ tu f v e hv]
      exact ⟨e, rfl⟩
    · cases hf' : fieldOf key' with
      | none => exact ih tu hrest
      | some f' =>
        cases hs : setField tu f' v' with
        | error e' => exact ⟨e', by simp only [hs]⟩
        | ok tu₁ =>
          simp only [hs]
          exact ih tu₁ hrest

end Generic

/-! ## Decoding, for `float64` read as the real numbers -/

theorem parseFloat_real (s : String) :
    (Float64.ParseFloat s : ℝ × Option GoError) =
      match readFloat s with
      | some d => (d.toReal, none)
      | none => (0, some (.numError s)) := rfl

theorem parseRadianFromDegree_real (s : String) :
    (parseRadianFromDegree s : ℝ × Option GoError) =
      match readFloat s with
      | some d => (d.toReal * Real.pi / 180, none)
      | none => (0, some (.numError s)) := by
  rw [parseRadianFromDegree, parseFloat_real]
  cases readFloat s with
  | none => simp [real_const]
  | some d => simp [radian_real]

/-- A line whose two coordinate strings are decimal literals decodes to the user with
their values, converted to radians. -/
theorem unmarshalUser_real (b : Line) (tu : RawUser) (dlat dlong : Decimal)
    (hb : unmarshalRawUser b = .ok tu) (hlat : readFloat tu.Lat = some dlat)
    (hlong : readFloat tu.Long = some dlong) :
    unmarshalUser b (User.zero : User ℝ) =
      (⟨tu.UserId, tu.Name, radian dlat.toReal, radian dlong.toReal⟩, none) := by
  cases b with
  | invalid => simp [unmarshalRawUser] at hb
  | json v =>
    simp [unmarshalUser, User.UnmarshalJSON, hb, getLatLongRadian, parseRadianFromDegree_real,
      hlat, hlong, radian_real]

theorem unmarshalUser_aliceLine : unmarshalUser aliceLine (User.zero : User ℝ) = (alice, none) := by
  rw [unmarshalUser_real aliceLine ⟨1, "Alice Cahill", "51.92893", "-10.27699"⟩
    ⟨5192893, -5⟩ ⟨-1027699, -5⟩ (by rfl) (by rfl) (by rfl)]
  norm_num [alice, Decimal.toReal]

theorem unmarshalUser_ianLine : unmarshalUser ianLine (User.zero : User ℝ) = (ian, none) := by
  rw [unmarshalUser_real ianLine ⟨2, "Ian Kehoe", "53.2451022", "-6.238335"⟩
    ⟨532451022, -7⟩ ⟨-6238335, -6⟩ (by rfl) (by rfl) (by rfl)]
  norm_num [ian, Decimal.toReal]

/-! ## The claims -/

section Claims

variable {F : Type} [Float64 F]

open Float64

/-- C1: when the scanner ends cleanly and every line decodes, `distances` returns no error
and exactly the decoded users whose distance from `from` is less than `limit`, in the
order of the input (a sublist of the decoded input); a user whose distance equals `limit`
is not among them. -/
theorem distances_returns_users_within_limit (r : Reader) (from' : User F) (limit : F)
    (hclean : r.err = none)
    (hdec : ∀ b ∈ r.lines, (unmarshalUser b (User.zero : User F)).2 = none) :
    distances r from' limit =
        (some ((r.lines.map fun b => (unmarshalUser b (User.zero : User F)).1).filter
          fun u => less (distance from' u) limit), none) ∧
      ((r.lines.map fun b => (unmarshalUser b (User.zero : User F)).1).filter
          fun u => less (distance from' u) limit).Sublist
        (r.lines.map fun b => (unmarshalUser b (User.zero : User F)).1) ∧
      ∀ u, distance from' u = limit →
        u ∉ (r.lines.map fun b => (unmarshalUser b (User.zero : User F)).1).filter
          fun u => less (distance from' u) limit := by
  refine ⟨?_, List.filter_sublist _, ?_⟩
  · rw [distances_eq, List.findSome?_eq_none_iff.mpr hdec, hclean]
  · intro u hu hmem
    have := (List.mem_filter.mp hmem).2
    simp [hu, less_self] at this

/-- C2: a line whose latitude or longitude string `strconv.ParseFloat` rejects makes
`distances` return a non-nil error and a nil slice, whatever the other lines are. -/
theorem distances_fails_on_bad_coordinate (r : Reader) (from' : User F) (limit : F)
    (hbad : ∃ b ∈ r.lines, ∃ tu, unmarshalRawUser b = .ok tu ∧
      ((ParseFloat tu.Lat : F × Option GoError).2 ≠ none ∨
        (ParseFloat tu.Long : F × Option GoError).2 ≠ none)) :
    ∃ e, distances r from' limit = (none, some e) := by
  obtain ⟨b, hb, tu, htu, h⟩ := hbad
  refine distances_error_of_mem r from' limit b hb ?_
  rw [unmarshalUser_snd]
  refine UnmarshalJSON_error_of_coords _ b tu htu ?_
  rcases h with h | h
  · exact getLatLongRadian_error_of_lat _ _ h
  · exact getLatLongRadian_error_of_long _ _ h

/-- C4: `parseRadianFromDegree(text)` is `(v * math.Pi / 180, nil)` when
`strconv.ParseFloat` reads `text` as the number `v`, and `(0, err)` with the non-nil error
of `strconv.ParseFloat` when it does not. -/
theorem parseRadianFromDegree_spec (text : String) :
    (∀ v : F, ParseFloat text = (v, none) →
      (parseRadianFromDegree text : F × Option GoError) = (v * Pi / const 180, none)) ∧
    (∀ (v : F) (e : GoError), ParseFloat text = (v, some e) →
      (parseRadianFromDegree text : F × Option GoError) = (const 0, some e)) := by
  constructor
  · intro v h
    simp [parseRadianFromDegree, h, radian]
  · intro v e h
    simp [parseRadianFromDegree, h]

/-- C8: for lines split into consecutive shards `xs` and `ys`, `distances` succeeds on
`xs ++ ys` exactly when it succeeds on `xs` and on `ys`, and then its result is the result
for `xs` followed by the result for `ys`. -/
theorem distances_append (xs ys : List Line) (from' : User F) (limit : F) :
    ((distances ⟨xs ++ ys, none⟩ from' limit).2 = none ↔
      (distances ⟨xs, none⟩ from' limit).2 = none ∧
        (distances ⟨ys, none⟩ from' limit).2 = none) ∧
    ∀ rx ry, distances ⟨xs, none⟩ from' limit = (some rx, none) →
      distances ⟨ys, none⟩ from' limit = (some ry, none) →
      distances ⟨xs ++ ys, none⟩ from' limit = (some (rx ++ ry), none) := by
  simp only [distances_eq, List.findSome?_append]
  cases hx : xs.findSome? (fun b => (unmarshalUser b (User.zero : User F)).2) <;>
    cases hy : ys.findSome? (fun b => (unmarshalUser b (User.zero : User F)).2) <;>
    simp

/-- C9: `distance` is symmetric. -/
theorem distance_symm (a b : User F) : distance a b = distance b a := by
  simp only [distance]
  show mul _ (Acos (add (mul _ _) (mul (mul _ _) (Cos (Abs (sub _ _)))))) =
    mul _ (Acos (add (mul _ _) (mul (mul _ _) (Cos (Abs (sub _ _))))))
  rw [abs_sub_swap, mul_commutes (Sin _), mul_commutes (Cos (Location.GetLatitude a))]

/-- In exact real arithmetic the distance of a coordinate to itself is 0: the formula of
`distance` is right there.  In `float64` the rounded argument of `math.Acos` can differ
from 1, and nothing in `distance` brings it back into `[-1, 1]`. -/
theorem distance_self (p : User ℝ) : distance p p = 0 := by
  rw [distance_real]
  have h : Real.sin p.Lat * Real.sin p.Lat + Real.cos p.Lat * Real.cos p.Lat *
      Real.cos |p.Long - p.Long| = 1 := by
    have := Real.sin_sq_add_cos_sq p.Lat
    simp only [sub_self, abs_zero, Real.cos_zero]
    nlinarith
  rw [h, Real.arccos_one, mul_zero]

/-- In exact real arithmetic the distance between a coordinate and its antipode (latitude
negated, longitudes `π` apart) is `6371 * π` km, which is within 100 km of 20000 km.  In
`float64` the rounded argument of `math.Acos` can differ from -1, and nothing in
`distance` brings it back into `[-1, 1]`. -/
theorem distance_antipode (p q : User ℝ) (hlat : q.Lat = -p.Lat)
    (hlong : |p.Long - q.Long| = Real.pi) :
    distance p q = 6371 * Real.pi ∧ |6371 * Real.pi - 20000| ≤ 100 := by
  constructor
  · rw [distance_real, hlat, hlong]
    have h : Real.sin p.Lat * Real.sin (-p.Lat) + Real.cos p.Lat * Real.cos (-p.Lat) *
        Real.cos Real.pi = -1 := by
      have := Real.sin_sq_add_cos_sq p.Lat
      simp only [Real.sin_neg, Real.cos_neg, Real.cos_pi]
      nlinarith
    rw [h, Real.arccos_neg_one]
  · have h₁ := Real.pi_gt_d2
    have h₂ := Real.pi_lt_d2
    rw [abs_le]
    constructor <;> norm_num at h₁ h₂ ⊢ <;> linarith

/-- C10: for `float64` read as the real numbers, the argument of the inverse cosine in
`distance` lies in `[-1, 1]`, and `0 ≤ distance a b ≤ 6371 * π`. -/
theorem distance_range (a b : User ℝ) :
    (-1 ≤ Real.sin a.Lat * Real.sin b.Lat +
        Real.cos a.Lat * Real.cos b.Lat * Real.cos |a.Long - b.Long| ∧
      Real.sin a.Lat * Real.sin b.Lat +
        Real.cos a.Lat * Real.cos b.Lat * Real.cos |a.Long - b.Long| ≤ 1) ∧
    distance a b = 6371 * Real.arccos (Real.sin a.Lat * Real.sin b.Lat +
      Real.cos a.Lat * Real.cos b.Lat * Real.cos |a.Long - b.Long|) ∧
    0 ≤ distance a b ∧ distance a b ≤ 6371 * Real.pi := by
  refine ⟨law_of_cosines_mem_Icc _ _ _ _ _ (Real.sin_sq_add_cos_sq _)
    (Real.sin_sq_add_cos_sq _) (Real.neg_one_le_cos _) (Real.cos_le_one _), distance_real a b,
    ?_, ?_⟩
  · rw [distance_real]
    exact mul_nonneg (by norm_num) (Real.arccos_nonneg _)
  · rw [distance_real]
    exact mul_le_mul_of_nonneg_left (Real.arccos_le_pi _) (by norm_num)

/-- C1, at `TestDistances`: both lines decode, and of Alice and Ian only Ian (`UserId` 2) is
within 100 km of the reference point. -/
theorem testDistances_returns_ian :
    (∀ b ∈ [aliceLine, ianLine], (unmarshalUser b (User.zero : User ℝ)).2 = none) ∧
      distances ⟨[aliceLine, ianLine], none⟩ (intercom : User ℝ) 100 = (some [ian], none) := by
  have hdec : ∀ b ∈ [aliceLine, ianLine], (unmarshalUser b (User.zero : User ℝ)).2 = none := by
    intro b hb
    simp only [List.mem_cons, List.mem_singleton, List.not_mem_nil, or_false] at hb
    rcases hb with rfl | rfl
    · rw [unmarshalUser_aliceLine]
    · rw [unmarshalUser_ianLine]
  refine ⟨hdec, ?_⟩
  rw [(distances_returns_users_within_limit ⟨[aliceLine, ianLine], none⟩ (intercom : User ℝ) 100
    rfl hdec).1]
  simp [unmarshalUser_aliceLine, unmarshalUser_ianLine, List.filter, real_less, alice_far,
    ian_near]

/-- `TestDistance`, first case, in exact real arithmetic: the distance of the reference
point to itself is 0. -/
theorem testDistance_intercom_self : distance (intercom : User ℝ) (intercom : User ℝ) = 0 :=
  distance_self intercom

/-- C2, at `TestDistancesError`: the latitude `"FFFFFFFF"` of the second line is not a
number, and `distances` fails although the first line is well-formed. -/
theorem testDistancesError_fails :
    (Float64.ParseFloat "FFFFFFFF" : ℝ × Option GoError).2 ≠ none ∧
      ∃ e, distances ⟨[aliceLine, badLine], none⟩ (intercom : User ℝ) 100 = (none, some e) := by
  have hbad : (Float64.ParseFloat "FFFFFFFF" : ℝ × Option GoError).2 ≠ none := by
    rw [parseFloat_real, show readFloat "FFFFFFFF" = none from rfl]
    simp
  exact ⟨hbad, distances_fails_on_bad_coordinate _ _ _
    ⟨badLine, by simp, ⟨2, "Case Should Fail", "FFFFFFFF", "-6.238335"⟩, rfl, Or.inl hbad⟩⟩

/-- C4, at `TestParseRadian`: `"0"` gives 0, `"180"` gives `π`, `"360"` gives `2 * π`, and
`"invalid input"` gives an error with value 0. -/
theorem testParseRadian :
    (parseRadianFromDegree "0" : ℝ × Option GoError) = (0, none) ∧
      (parseRadianFromDegree "180" : ℝ × Option GoError) = (Real.pi, none) ∧
      (parseRadianFromDegree "360" : ℝ × Option GoError) = (2 * Real.pi, none) ∧
      (parseRadianFromDegree "invalid input" : ℝ × Option GoError) =
        (0, some (.numError "invalid input")) := by
  have h0 := (parseRadianFromDegree_spec (F := ℝ) "0").1 0 (by
    rw [parseFloat_real, show readFloat "0" = some ⟨0, 0⟩ from rfl]
    norm_num [Decimal.toReal])
  have h180 := (parseRadianFromDegree_spec (F := ℝ) "180").1 180 (by
    rw [parseFloat_real, show readFloat "180" = some ⟨180, 0⟩ from rfl]
    norm_num [Decimal.toReal])
  have h360 := (parseRadianFromDegree_spec (F := ℝ) "360").1 360 (by
    rw [parseFloat_real, show readFloat "360" = some ⟨360, 0⟩ from rfl]
    norm_num [Decimal.toReal])
  have hinv := (parseRadianFromDegree_spec (F := ℝ) "invalid input").2 0
    (.numError "invalid input") (by
      rw [parseFloat_real, show readFloat "invalid input" = none from rfl])
  simp only [real_mul, real_div, real_Pi, real_const] at h0 h180 h360 hinv
  refine ⟨?_, ?_, ?_, ?_⟩
  · rw [h0]; norm_num
  · rw [h180]; norm_num
  · rw [h360]; norm_num; ring
  · rw [hinv]; norm_num

/-- `TestDistance`, third case, in exact real arithmetic: the point in Brasil and the
point in Indonesia are antipodes, so their distance is `6371 * π` km, within 100 km of
20000 km. -/
theorem testDistance_antipodes :
    indonesia.Lat = -brasil.Lat ∧ |brasil.Long - indonesia.Long| = Real.pi ∧
      distance brasil indonesia = 6371 * Real.pi ∧ |6371 * Real.pi - 20000| ≤ 100 := by
  have hlat : indonesia.Lat = -brasil.Lat := by
    simp only [indonesia, brasil, radian_real]
    ring
  have hlong : |brasil.Long - indonesia.Long| = Real.pi := by
    simp only [indonesia, brasil, radian_real]
    rw [show -63.281250 * Real.pi / 180 - 116.718750 * Real.pi / 180 = -Real.pi by ring,
      abs_neg, abs_of_pos Real.pi_pos]
  exact ⟨hlat, hlong, distance_antipode brasil indonesia hlat hlong⟩

/-- C5, as stated, fails: a line with a latitude and a longitude but neither `user_id` nor
`name` decodes, to a user with `UserId` 0 and an empty `Name`, and `distances` does not
abort on it. -/
theorem coordinatesOnlyLine_decodes :
    carries .UserId coordinatesOnlyLine = false ∧ carries .Name coordinatesOnlyLine = false ∧
      unmarshalUser coordinatesOnlyLine (User.zero : User ℝ) =
        (⟨0, "", radian 53.2451022, radian (-6.238335)⟩, none) ∧
      (distances ⟨[coordinatesOnlyLine], none⟩ (intercom : User ℝ) 100).2 = none := by
  have hdec : unmarshalUser coordinatesOnlyLine (User.zero : User ℝ) =
      (⟨0, "", radian 53.2451022, radian (-6.238335)⟩, none) := by
    rw [unmarshalUser_real coordinatesOnlyLine ⟨0, "", "53.2451022", "-6.238335"⟩
      ⟨532451022, -7⟩ ⟨-6238335, -6⟩ (by rfl) (by rfl) (by rfl)]
    norm_num [Decimal.toReal]
  refine ⟨by rfl, by rfl, hdec, ?_⟩
  rw [distances_eq]
  simp [hdec]

/-- C5, amended: decoding needs the two coordinates and nothing else.  A line that lacks a
latitude or a longitude is rejected by `User.UnmarshalJSON`, and `distances` fails on any
input that holds it; an object that decodes still decodes without its `user_id` and `name`
members, to the same coordinates with `UserId` 0 and an empty `Name`. -/
theorem decoding_requires_coordinates_only :
    (∀ b : Line, carries .Lat b = false ∨ carries .Long b = false →
      (∀ u : User F, (u.UnmarshalJSON b).2 ≠ none) ∧
        ∀ (r : Reader) (from' : User F) (limit : F), b ∈ r.lines →
          ∃ e, distances r from' limit = (none, some e)) ∧
    ∀ (ms : List (String × JSON)) (u : User F),
      unmarshalUser (.json (.object ms)) (User.zero : User F) = (u, none) →
      unmarshalUser (.json (.object (withoutIdAndName ms))) (User.zero : User F) =
        ({ u with UserId := 0, Name := "" }, none) := by
  refine ⟨fun b hb => ⟨fun u => ?_, fun r from' limit hmem => ?_⟩,
    unmarshalUser_withoutIdAndName⟩
  · rw [← unmarshalUser_snd]
    exact unmarshalUser_error_of_not_carries b u hb
  · exact distances_error_of_mem r from' limit b hmem
      (unmarshalUser_error_of_not_carries b _ hb)

/-- C5, amended, at a line without `longitude`: it is rejected, and `distances` fails on
the input of `TestDistances` with that line added. -/
theorem noLongitudeLine_rejected :
    carries .Long noLongitudeLine = false ∧
      (∀ u : User ℝ, (u.UnmarshalJSON noLongitudeLine).2 ≠ none) ∧
      ∃ e, distances ⟨[aliceLine, ianLine, noLongitudeLine], none⟩ (intercom : User ℝ) 100 =
        (none, some e) := by
  have h : carries .Long noLongitudeLine = false := by rfl
  have hc := (decoding_requires_coordinates_only (F := ℝ)).1 noLongitudeLine (Or.inr h)
  exact ⟨h, hc.1, hc.2 ⟨[aliceLine, ianLine, noLongitudeLine], none⟩ intercom 100 (by simp)⟩

/-- C6: for `float64` read as the real numbers, the distance between Varanasi and New Delhi,
both converted with `radian`, is within 1 km of 675 km. -/
theorem varanasi_newDelhi_bounds :
    674 ≤ distance varanasi newDelhi ∧ distance varanasi newDelhi ≤ 676 := by
  rw [distance_real]
  simp only [varanasi, newDelhi, radian_real, Real.cos_abs]
  obtain ⟨hXlo, hXhi⟩ := varanasi_newDelhi_cos
  generalize Real.sin (25.3209013 * Real.pi / 180) * Real.sin (28.5274229 * Real.pi / 180) +
    Real.cos (25.3209013 * Real.pi / 180) * Real.cos (28.5274229 * Real.pi / 180) *
      Real.cos (82.921069 * Real.pi / 180 - 77.1389452 * Real.pi / 180) = X at hXlo hXhi ⊢
  have hpi : (3 : ℝ) ≤ Real.pi := Real.pi_gt_three.le
  constructor
  · have h : (674 / 6371 : ℝ) ≤ Real.arccos X :=
      le_arccos_of_le_cos (by norm_num) (le_trans (by norm_num) hpi)
        (le_trans (by norm_num) hXlo) (le_trans hXhi (le_trans (by norm_num) cos_674))
    rw [div_le_iff₀ (by norm_num)] at h
    linarith
  · have h : Real.arccos X ≤ (676 / 6371 : ℝ) :=
      arccos_le_of_cos_le (by norm_num) (le_trans (by norm_num) hpi)
        (le_trans hXhi (by norm_num)) (le_trans cos_676 (le_trans (by norm_num) hXlo))
    rw [le_div_iff₀ (by norm_num)] at h
    linarith

end Claims

/-! ## Further properties of `distances` -/

section Further

variable {F : Type} [Float64 F]

/-- A read failure aborts: when the scanner stops with an error after lines that all
decode, `distances` returns that error and a nil slice. -/
theorem distances_scanner_error (r : Reader) (from' : User F) (limit : F) (e : GoError)
    (herr : r.err = some e)
    (hdec : ∀ b ∈ r.lines, (unmarshalUser b (User.zero : User F)).2 = none) :
    distances r from' limit = (none, some e) := by
  rw [distances_eq, List.findSome?_eq_none_iff.mpr hdec, herr]

/-- The lines of `TestDistances`, cut short by a scanner error. -/
theorem testDistances_scanner_error :
    (∀ b ∈ [aliceLine, ianLine], (unmarshalUser b (User.zero : User ℝ)).2 = none) ∧
      distances ⟨[aliceLine, ianLine], some (.scan "token too long")⟩ (intercom : User ℝ) 100 =
        (none, some (.scan "token too long")) := by
  have hdec : ∀ b ∈ [aliceLine, ianLine], (unmarshalUser b (User.zero : User ℝ)).2 = none := by
    intro b hb
    simp only [List.mem_cons, List.mem_singleton, List.not_mem_nil, or_false] at hb
    rcases hb with rfl | rfl
    · rw [unmarshalUser_aliceLine]
    · rw [unmarshalUser_ianLine]
  exact ⟨hdec, distances_scanner_error _ _ _ _ rfl hdec⟩

/-- Fail-fast: `distances` returns the error of the first line that does not decode,
whatever follows that line and however the scanner ends. -/
theorem distances_first_error (pre post : List Line) (b : Line) (err : Option GoError)
    (from' : User F) (limit : F) (e : GoError)
    (hpre : ∀ x ∈ pre, (unmarshalUser x (User.zero : User F)).2 = none)
    (hb : (unmarshalUser b (User.zero : User F)).2 = some e) :
    distances ⟨pre ++ b :: post, err⟩ from' limit = (none, some e) := by
  rw [distances_eq]
  simp only [List.findSome?_append, List.findSome?_eq_none_iff.mpr hpre, List.findSome?_cons, hb,
    Option.or]

/-- The input of `TestDistancesError` with a further line: the error is that of
`"FFFFFFFF"`. -/
theorem testDistancesError_first_error :
    (∀ x ∈ [aliceLine], (unmarshalUser x (User.zero : User ℝ)).2 = none) ∧
      (unmarshalUser badLine (User.zero : User ℝ)).2 = some (.numError "FFFFFFFF") ∧
      distances ⟨[aliceLine] ++ badLine :: [ianLine], none⟩ (intercom : User ℝ) 100 =
        (none, some (.numError "FFFFFFFF")) := by
  have hpre : ∀ x ∈ [aliceLine], (unmarshalUser x (User.zero : User ℝ)).2 = none := by
    intro x hx
    rw [List.mem_singleton.mp hx, unmarshalUser_aliceLine]
  have hb : (unmarshalUser badLine (User.zero : User ℝ)).2 = some (.numError "FFFFFFFF") := by
    have h₁ : unmarshalRawUser badLine = .ok ⟨2, "Case Should Fail", "FFFFFFFF", "-6.238335"⟩ :=
      rfl
    have h₂ : readFloat "FFFFFFFF" = none := rfl
    rw [unmarshalUser_snd]
    simp [User.UnmarshalJSON, getLatLongRadian, parseRadianFromDegree_real, h₁, h₂]
  exact ⟨hpre, hb, distances_first_error _ _ _ _ _ _ _ hpre hb⟩

/-- A field that is present must have its type: an object with a member whose value does
not fit the field of its key (a `user_id` that is not an integer, a `name`, `latitude` or
`longitude` that is not a string) is rejected, and `distances` fails on any input that
holds it. -/
theorem unmarshalUser_error_of_type (ms : List (String × JSON)) (key : String) (v : JSON)
    (f : Field) (e : GoError) (hmem : (key, v) ∈ ms) (hf : fieldOf key = some f)
    (hv : setField RawUser.zero f v = .error e) :
    (∀ u : User F, (u.UnmarshalJSON (.json (.object ms))).2 ≠ none) ∧
      ∀ (r : Reader) (from' : User F) (limit : F), .json (.object ms) ∈ r.lines →
        ∃ e', distances r from' limit = (none, some e') := by
  have hu : ∀ u : User F, (u.UnmarshalJSON (.json (.object ms))).2 ≠ none := by
    intro u
    obtain ⟨e', he'⟩ := decodeMembers_error_of_mem ms RawUser.zero key v f e hmem hf hv
    simp [User.UnmarshalJSON, unmarshalRawUser, he']
  refine ⟨hu, fun r from' limit hmem' => ?_⟩
  refine distances_error_of_mem r from' limit _ hmem' ?_
  rw [unmarshalUser_snd]
  exact hu _

/-- A line whose `user_id` is the string `"2"` is rejected. -/
theorem stringIdLine_rejected :
    (fieldOf "user_id" = some .UserId ∧
      setField RawUser.zero .UserId (.string "2") = .error (.jsonType "user_id")) ∧
      ∀ u : User ℝ, (u.UnmarshalJSON stringIdLine).2 ≠ none := by
  have hf : fieldOf "user_id" = some .UserId := by rfl
  have hv : setField RawUser.zero .UserId (.string "2") = .error (.jsonType "user_id") := rfl
  exact ⟨⟨hf, hv⟩, (unmarshalUser_error_of_type (F := ℝ) _ "user_id" (.string "2") .UserId _
    (by simp) hf hv).1⟩

end Further

end Intercom
